import Mathlib

/-!
# Verification of the BusTub storage core against its specification

Shallow embedding of the repository's storage primitives:

* `LRUKReplacer` — from `src/buffer/lru_k_replacer.cpp` (src/unnamed/part_000);
* `BufferPoolManager` — two revisions are present in the repository:
  `src/src/buffer/buffer_pool_manager.cpp` (called revision *v2* below) and
  the revision in `src/unnamed/part_001` (called *v1*); the functions they
  share verbatim are defined once;
* the B+ tree (`src/src/storage/index/b_plus_tree.cpp` and the page layouts
  in `src/src/storage/page/`);
* the copy-on-write trie (`src/src/primer/trie.cpp`).

C++ `std::map`/`std::unordered_map` objects are embedded as association
lists with unique keys; `std::list` as `List`; machine integers that can
be negative (page ids, pin counts, page sizes) as `Int`; frame ids,
timestamps and list lengths as `Nat`.  Exceptions (`std::out_of_range`,
`std::runtime_error`) and undefined behaviour (reading an uninitialized
victim frame) are made explicit with `Except`.  Loops whose bound is not
structural carry an explicit fuel argument; every caller passes
provably-sufficient fuel for the states exercised here.
-/

namespace BusTub

/-! ## Association-list helpers (embedding of `std::map` / `std::unordered_map`) -/

/-- Lookup in an association list: the map's `find`. -/
def alookup {α β : Type} [DecidableEq α] : List (α × β) → α → Option β
  | [], _ => none
  | (a, b) :: t, x => if a = x then some b else alookup t x

/-- Update-or-append: the map's `operator[] =` (insert or overwrite). -/
def aset {α β : Type} [DecidableEq α] : List (α × β) → α → β → List (α × β)
  | [], x, v => [(x, v)]
  | (a, b) :: t, x, v => if a = x then (x, v) :: t else (a, b) :: aset t x v

/-- Erase a key: the map's `erase`. -/
def aerase {α β : Type} [DecidableEq α] : List (α × β) → α → List (α × β)
  | [], _ => []
  | (a, b) :: t, x => if a = x then t else (a, b) :: aerase t x

@[simp] theorem alookup_nil {α β : Type} [DecidableEq α] (x : α) :
    alookup ([] : List (α × β)) x = none := rfl

theorem alookup_aset_self {α β : Type} [DecidableEq α]
    (l : List (α × β)) (x : α) (v : β) : alookup (aset l x v) x = some v := by
  induction l with
  | nil => simp [aset, alookup]
  | cons hd t ih =>
    obtain ⟨a, b⟩ := hd
    by_cases h : a = x
    · simp [aset, h, alookup]
    · simp [aset, h, alookup, ih]

theorem alookup_aset_ne {α β : Type} [DecidableEq α]
    (l : List (α × β)) (x y : α) (v : β) (hxy : x ≠ y) :
    alookup (aset l x v) y = alookup l y := by
  induction l with
  | nil => simp [aset, alookup, hxy]
  | cons hd t ih =>
    obtain ⟨a, b⟩ := hd
    by_cases h : a = x
    · subst h
      simp [aset, alookup, hxy, ih]
    · simp [aset, h, alookup, ih]

/-- Insertion into a vector at a position: `v.insert(v.begin() + pos, e)`.
Positions past the end (undefined behaviour in C++) append at the end. -/
def insertAtPos {β : Type} : Nat → β → List β → List β
  | 0, e, l => e :: l
  | _ + 1, e, [] => [e]
  | n + 1, e, x :: xs => x :: insertAtPos n e xs

theorem insertAtPos_length {β : Type} (e : β) :
    ∀ (n : Nat) (l : List β), n ≤ l.length →
      (insertAtPos n e l).length = l.length + 1 := by
  intro n
  induction n with
  | zero => intro l _; simp [insertAtPos]
  | succ m ih =>
    intro l hn
    cases l with
    | nil => simp at hn
    | cons x xs =>
      simp only [insertAtPos, List.length_cons]
      have := ih xs (by simpa using hn)
      omega

/-! ## LRU-K replacer (`src/buffer/lru_k_replacer.cpp`, src/unnamed/part_000) -/

/-- Per-frame metadata (`LRUKNode`): access-timestamp history (oldest first,
at most `k` entries) and the evictable flag (default `false`). -/
structure LRUKNode where
  history : List Nat
  isEvictable : Bool
  deriving Repr, DecidableEq

/-- A default-constructed `LRUKNode`. -/
def LRUKNode.init : LRUKNode := ⟨[], false⟩

/-- Replacer state (`LRUKReplacer`).  `currSize` mirrors `curr_size_`, which
the source decrements in `Evict`/`Remove` but never reads (`Size()`
recomputes the count), so it is carried for fidelity only. -/
structure LRUKReplacer where
  k : Nat
  replacerSize : Nat
  nodeStore : List (Nat × LRUKNode)
  kFrames : List Nat
  lessKFrames : List Nat
  currentTimestamp : Nat
  currSize : Nat
  deriving Repr, DecidableEq

/-- `LRUKReplacer(num_frames, k)`. -/
def mkReplacer (numFrames k : Nat) : LRUKReplacer :=
  ⟨k, numFrames, [], [], [], 0, 0⟩

/-- Exceptions thrown by the replacer, plus a marker for C++ undefined
behaviour reached by a caller. -/
inductive RErr where
  | outOfRange   -- std::out_of_range
  | notTracked   -- std::runtime_error in SetEvictable
  | ub           -- caller reads an uninitialized victim frame
  deriving Repr, DecidableEq

/-- `node_store_[f]` read access: `std::map::operator[]` default-constructs a
node when the key is absent, so the possibly-grown store is returned too. -/
def mapIndex (s : List (Nat × LRUKNode)) (f : Nat) : List (Nat × LRUKNode) × LRUKNode :=
  match alookup s f with
  | some n => (s, n)
  | none => (s ++ [(f, LRUKNode.init)], LRUKNode.init)

/-- The lambda `get_evictable_from_list` inside `Evict`: scan the list front
to back, erase and return the first frame whose node is evictable.  Returns
the (possibly grown) node store and, on success, the victim with the list
with the victim's position erased. -/
def getEvictableFromList (s : List (Nat × LRUKNode)) :
    List Nat → List (Nat × LRUKNode) × Option (Nat × List Nat)
  | [] => (s, none)
  | f :: rest =>
    let p := mapIndex s f
    if p.2.isEvictable then (p.1, some (f, rest))
    else
      match getEvictableFromList p.1 rest with
      | (s2, some (v, rest2)) => (s2, some (v, f :: rest2))
      | (s2, none) => (s2, none)

/-- `LRUKReplacer::Evict`: scan `less_k_frames_` first, then `k_frames_`;
on success erase the victim's metadata.  Returns the victim (if any) and
the new state. -/
def evictOp (r : LRUKReplacer) : Option Nat × LRUKReplacer :=
  if r.kFrames = [] ∧ r.lessKFrames = [] then (none, r)
  else
    let step1 :=
      if r.lessKFrames ≠ [] then
        match getEvictableFromList r.nodeStore r.lessKFrames with
        | (s1, some (v, l1)) => (s1, some v, l1, r.kFrames)
        | (s1, none) => (s1, none, r.lessKFrames, r.kFrames)
      else (r.nodeStore, none, r.lessKFrames, r.kFrames)
    match step1 with
    | (s1, some v, lessK1, kF1) =>
      (some v, { r with nodeStore := aerase s1 v, lessKFrames := lessK1,
                        kFrames := kF1, currSize := r.currSize - 1 })
    | (s1, none, lessK1, kF1) =>
      if r.kFrames ≠ [] then
        match getEvictableFromList s1 r.kFrames with
        | (s2, some (v, k2)) =>
          (some v, { r with nodeStore := aerase s2 v, lessKFrames := lessK1,
                            kFrames := k2, currSize := r.currSize - 1 })
        | (s2, none) =>
          (none, { r with nodeStore := s2, lessKFrames := lessK1, kFrames := kF1 })
      else (none, { r with nodeStore := s1, lessKFrames := lessK1, kFrames := kF1 })

/-- `LRUKReplacer::RecordAccess`.  Throws `out_of_range` for
`frame_id ≥ replacer_size_`; bumps the logical timestamp; creates the node
(appending to `less_k_frames_`) when unknown; appends the timestamp to the
history, popping the front when more than `k` entries remain; then moves
the frame to the back of the appropriate list
(`std::list::remove` erases by value). -/
def recordAccess (r : LRUKReplacer) (f : Nat) : Except RErr LRUKReplacer :=
  if r.replacerSize ≤ f then .error .outOfRange
  else
    let ts := r.currentTimestamp + 1
    let known := (alookup r.nodeStore f).isSome
    let store1 := if known then r.nodeStore else aset r.nodeStore f LRUKNode.init
    let lessK1 := if known then r.lessKFrames else r.lessKFrames ++ [f]
    let node := (alookup store1 f).getD LRUKNode.init
    let hist1 := node.history ++ [ts]
    let hist2 := if r.k < hist1.length then hist1.tail else hist1
    let store2 := aset store1 f { node with history := hist2 }
    if hist2.length < r.k then
      .ok { r with currentTimestamp := ts, nodeStore := store2,
                   lessKFrames := (lessK1.filter (fun x => x ≠ f)) ++ [f] }
    else if hist2.length = r.k then
      if f ∈ r.kFrames then
        .ok { r with currentTimestamp := ts, nodeStore := store2,
                     lessKFrames := lessK1,
                     kFrames := (r.kFrames.filter (fun x => x ≠ f)) ++ [f] }
      else
        .ok { r with currentTimestamp := ts, nodeStore := store2,
                     lessKFrames := lessK1.filter (fun x => x ≠ f),
                     kFrames := r.kFrames ++ [f] }
    else
      .ok { r with currentTimestamp := ts, nodeStore := store2,
                   lessKFrames := lessK1 }

/-- `LRUKReplacer::SetEvictable`: `out_of_range` for bad ids, `runtime_error`
when the frame was never recorded, otherwise toggles the flag. -/
def setEvictable (r : LRUKReplacer) (f : Nat) (b : Bool) : Except RErr LRUKReplacer :=
  if r.replacerSize ≤ f then .error .outOfRange
  else
    match alookup r.nodeStore f with
    | some n => .ok { r with nodeStore := aset r.nodeStore f { n with isEvictable := b } }
    | none => .error .notTracked

/-- `LRUKReplacer::Remove`: `out_of_range` for bad ids; erases the metadata
if present and drops the frame from both lists. -/
def removeFrame (r : LRUKReplacer) (f : Nat) : Except RErr LRUKReplacer :=
  if r.replacerSize ≤ f then .error .outOfRange
  else
    let present := (alookup r.nodeStore f).isSome
    .ok { r with
          nodeStore := if present then aerase r.nodeStore f else r.nodeStore,
          currSize := if present then r.currSize - 1 else r.currSize,
          kFrames := r.kFrames.filter (fun x => x ≠ f),
          lessKFrames := r.lessKFrames.filter (fun x => x ≠ f) }

/-- `LRUKReplacer::Size`: count of tracked frames whose flag is set. -/
def replacerCount (r : LRUKReplacer) : Nat :=
  (r.nodeStore.filter (fun p => p.2.isEvictable)).length

/-- Backward K-distance, written from the specification's words (§4.1 /
glossary): `+∞` (here `none`) for a frame with fewer than `k` recorded
accesses, otherwise `now` minus the Kth-most-recent timestamp (the history
keeps the last `k` accesses oldest-first, so that is its head).  Used to
compare `Evict`'s choice with the specified policy. -/
def backwardKDistance (r : LRUKReplacer) (f : Nat) : Option (Option Nat) :=
  match alookup r.nodeStore f with
  | none => none
  | some n =>
    if n.history.length < r.k then some none
    else some (some (r.currentTimestamp - n.history.headD 0))

/-! ## Buffer pool manager

Two revisions of `buffer_pool_manager.cpp` are in the repository:
`src/src/buffer/buffer_pool_manager.cpp` (*v2*) and `src/unnamed/part_001`
(*v1*).  `NewPage`, `UnpinPage` and `FlushPage` are identical in both and
are defined once; `FetchPage` and `FlushAllPages` differ and get one
definition per revision.  Page payloads are abstracted to a single `Nat`
(`ResetMemory` zeroes it); the disk manager is a page-id-indexed map plus
a log of the `WritePage` calls issued, in order. -/

/-- A frame's `Page` object.  A default-constructed page has
`page_id_ = INVALID_PAGE_ID` (= -1), pin count 0, clean, zeroed data. -/
structure Page where
  pageId : Int
  pinCount : Int
  isDirty : Bool
  data : Nat
  deriving Repr, DecidableEq

def Page.init : Page := ⟨-1, 0, false, 0⟩

/-- Buffer pool manager state plus the external collaborators it drives:
the replacer, the disk contents, and the ordered log of disk writes. -/
structure BPM where
  poolSize : Nat
  pages : List Page
  pageTable : List (Int × Nat)
  freeList : List Nat
  nextPageId : Int
  repl : LRUKReplacer
  disk : List (Int × Nat)
  writeLog : List Int
  deriving Repr, DecidableEq

/-- `BufferPoolManager(pool_size, disk, replacer_k, log)`: every frame starts
on the free list. -/
def mkBPM (poolSize replacerK : Nat) : BPM :=
  ⟨poolSize, List.replicate poolSize Page.init, [], List.range poolSize, 0,
   mkReplacer poolSize replacerK, [], []⟩

/-- `disk_manager_->WritePage(pid, data)`. -/
def diskWritePage (σ : BPM) (pid : Int) (data : Nat) : BPM :=
  { σ with disk := aset σ.disk pid data, writeLog := σ.writeLog ++ [pid] }

/-- `disk_manager_->ReadPage(pid, buffer)` (unwritten pages read as zeroes). -/
def diskReadPage (σ : BPM) (pid : Int) : Nat := (alookup σ.disk pid).getD 0

/-- Grab a victim frame: the front of the free list if any, else ask the
replacer.  `none` means `Evict` failed; `newPage`/`fetchPage_v2` reach their
eviction call only behind the `Size() == 0 && free_list_.empty()` guard and
use the frame unchecked, so a failure there is undefined behaviour. -/
def pickVictim (σ : BPM) : Option (Nat × BPM) × BPM :=
  match σ.freeList with
  | f :: rest => (some (f, { σ with freeList := rest }), σ)
  | [] =>
    match evictOp σ.repl with
    | (some f, r1) => (some (f, { σ with repl := r1 }), { σ with repl := r1 })
    | (none, r1) => (none, { σ with repl := r1 })

/-- `BufferPoolManager::NewPage` (identical in both revisions).  Note the
victim's old page-table entry is erased only inside the `IsDirty()` branch. -/
def newPage (σ : BPM) : Except RErr (Option (Int × BPM)) := do
  if replacerCount σ.repl = 0 ∧ σ.freeList = [] then return none
  let (victim, σ1) ←
    match (pickVictim σ).1 with
    | some vs => Except.ok vs
    | none => Except.error RErr.ub
  let pg := σ1.pages.getD victim Page.init
  let σ2 :=
    if pg.isDirty then
      let σw := diskWritePage σ1 pg.pageId pg.data
      { σw with pageTable := aerase σw.pageTable pg.pageId,
                pages := σw.pages.set victim { pg with data := 0 } }
    else σ1
  let pg2 := σ2.pages.getD victim Page.init
  let pid := σ2.nextPageId
  let σ3 := { σ2 with nextPageId := σ2.nextPageId + 1,
                      pages := σ2.pages.set victim { pg2 with pageId := pid, pinCount := 1 } }
  let r1 ← recordAccess σ3.repl victim
  let r2 ← setEvictable r1 victim false
  let σ4 := { σ3 with repl := r2 }
  return some (pid, { σ4 with pageTable := aset σ4.pageTable pid victim })

/-- `BufferPoolManager::FetchPage`, revision v1 (src/unnamed/part_001):
a resident page is found in the page table first; on a miss the victim's
old page-table entry is never erased before `page_table_[page_id] = victim`
is installed. -/
def fetchPage_v1 (σ : BPM) (pid : Int) : Except RErr (Option (Nat × BPM)) := do
  match alookup σ.pageTable pid with
  | some f =>
    let pg := σ.pages.getD f Page.init
    return some (f, { σ with pages := σ.pages.set f { pg with pinCount := pg.pinCount + 1 } })
  | none =>
    let vchoice : Option (Nat × BPM) :=
      match σ.freeList with
      | v :: rest => some (v, { σ with freeList := rest })
      | [] =>
        match evictOp σ.repl with
        | (some v, r1) => some (v, { σ with repl := r1 })
        | (none, _) => none   -- `if (!replacer_->Evict(&victim_frame)) return nullptr;`
    match vchoice with
    | none => return none
    | some (victim, σ1) =>
    let r1 ← recordAccess σ1.repl victim
    let r2 ← setEvictable r1 victim false
    let σ2 := { σ1 with repl := r2, pageTable := aset σ1.pageTable pid victim }
    let pg := σ2.pages.getD victim Page.init
    let σ3 :=
      if pg.isDirty then
        let σw := diskWritePage σ2 pg.pageId pg.data
        { σw with pages := σw.pages.set victim { pg with isDirty := false } }
      else σ2
    let pg2 := σ3.pages.getD victim Page.init
    let pg3 := { pg2 with data := diskReadPage σ3 pid, pinCount := (1 : Int), pageId := pid }
    let σ4 := { σ3 with pages := σ3.pages.set victim pg3 }
    return some (victim, σ4)

/-- `BufferPoolManager::FetchPage`, revision v2
(src/src/buffer/buffer_pool_manager.cpp): returns null whenever the free
list is empty and no frame is evictable — *before* looking the page up in
the page table; like v1 it never erases the victim's old mapping. -/
def fetchPage_v2 (σ : BPM) (pid : Int) : Except RErr (Option (Nat × BPM)) := do
  if replacerCount σ.repl = 0 ∧ σ.freeList = [] then return none
  match alookup σ.pageTable pid with
  | some f =>
    let pg := σ.pages.getD f Page.init
    return some (f, { σ with pages := σ.pages.set f { pg with pinCount := pg.pinCount + 1 } })
  | none =>
    let (victim, σ1) ←
      match (pickVictim σ).1 with
      | some vs => Except.ok vs
      | none => Except.error RErr.ub
    let pg := σ1.pages.getD victim Page.init
    let σ2 :=
      if pg.isDirty then
        let σw := diskWritePage σ1 pg.pageId pg.data
        { σw with pages := σw.pages.set victim { pg with isDirty := false } }
      else σ1
    let pg2 := σ2.pages.getD victim Page.init
    let pg3 := { pg2 with data := diskReadPage σ2 pid, pinCount := (1 : Int), pageId := pid }
    let σ3 := { σ2 with pages := σ2.pages.set victim pg3 }
    let r1 ← recordAccess σ3.repl victim
    let r2 ← setEvictable r1 victim false
    let σ4 := { σ3 with repl := r2 }
    return some (victim, { σ4 with pageTable := aset σ4.pageTable pid victim })

/-- `BufferPoolManager::UnpinPage` (identical in both revisions): false when
the page is not resident or its pin count is already ≤ 0; otherwise
decrement, mark evictable when the count reaches 0, and latch the dirty
flag on when `is_dirty` is true. -/
def unpinPage (σ : BPM) (pid : Int) (isDirty : Bool) : Except RErr (Bool × BPM) :=
  match alookup σ.pageTable pid with
  | none => .ok (false, σ)
  | some f =>
    let pg := σ.pages.getD f Page.init
    if pg.pinCount ≤ 0 then .ok (false, σ)
    else
      let pc := pg.pinCount - 1
      let σ1 := { σ with pages := σ.pages.set f { pg with pinCount := pc } }
      let next : Except RErr BPM :=
        if pc = 0 then
          match setEvictable σ1.repl f true with
          | .ok r1 => .ok { σ1 with repl := r1 }
          | .error e => .error e
        else .ok σ1
      match next with
      | .error e => .error e
      | .ok σ2 =>
        let pg2 := σ2.pages.getD f Page.init
        .ok (true, if isDirty then { σ2 with pages := σ2.pages.set f { pg2 with isDirty := true } } else σ2)

/-- `BufferPoolManager::FlushPage` (identical in both revisions): false when
not resident, else write the frame to disk and clear the dirty flag
(pin count and evictability untouched). -/
def flushPage (σ : BPM) (pid : Int) : Bool × BPM :=
  match alookup σ.pageTable pid with
  | none => (false, σ)
  | some f =>
    let σ1 := diskWritePage σ pid (σ.pages.getD f Page.init).data
    let pg := σ1.pages.getD f Page.init
    (true, { σ1 with pages := σ1.pages.set f { pg with isDirty := false } })

/-- `BufferPoolManager::FlushAllPages`, revision v2
(src/src/buffer/buffer_pool_manager.cpp): passes the *loop index* as the
page id — `FlushPage(frame_id)`. -/
def flushAllPages_v2 (σ : BPM) : BPM :=
  (List.range σ.poolSize).foldl (fun s i => (flushPage s (i : Int)).2) σ

/-- `BufferPoolManager::FlushAllPages`, revision v1 (src/unnamed/part_001):
flushes each frame's recorded page id — `FlushPage(pages_[frame_id].page_id_)`. -/
def flushAllPages_v1 (σ : BPM) : BPM :=
  (List.range σ.poolSize).foldl (fun s i => (flushPage s (s.pages.getD i Page.init).pageId).2) σ

/-- The page-table invariant claimed by the specification (§3, §4.2):
resident page ids are unique keys, no frame appears twice as a value, and
every entry `(pid, f)` points at a frame currently holding page `pid`. -/
def pageTableInv (σ : BPM) : Prop :=
  (σ.pageTable.map Prod.fst).Nodup ∧ (σ.pageTable.map Prod.snd).Nodup ∧
  ∀ e ∈ σ.pageTable, (σ.pages.getD e.2 Page.init).pageId = e.1

instance (σ : BPM) : Decidable (pageTableInv σ) := by
  unfold pageTableInv; infer_instance

instance {ε α : Type} [DecidableEq ε] [DecidableEq α] : DecidableEq (Except ε α) := fun a b =>
  match a, b with
  | .ok x, .ok y =>
    if h : x = y then .isTrue (by rw [h]) else .isFalse (by intro hc; cases hc; exact h rfl)
  | .error x, .error y =>
    if h : x = y then .isTrue (by rw [h]) else .isFalse (by intro hc; cases hc; exact h rfl)
  | .ok _, .error _ => .isFalse (by intro hc; cases hc)
  | .error _, .ok _ => .isFalse (by intro hc; cases hc)

/-! ## Concrete buffer pool runs used by the claims -/

/-- Pool of one frame, `k = 2`: `NewPage` → page 0 (clean), `UnpinPage(0,false)`,
`NewPage` → page 1 reusing the clean victim frame 0. -/
def bpmNewPageTwice : Option BPM :=
  match (do
    match ← newPage (mkBPM 1 2) with
    | none => pure none
    | some (_, a) => do
      let (_, b) ← unpinPage a 0 false
      match ← newPage b with
      | none => pure none
      | some (_, c) => pure (some c) : Except RErr (Option BPM)) with
  | .ok (some σ) => some σ
  | _ => none

/-- Pool of one frame, `k = 2`, after a single `NewPage`: page 0 is resident
in frame 0 with pin count 1, the free list is empty, and no frame is
evictable — every frame is pinned. -/
def bpmOnePinned : BPM :=
  match newPage (mkBPM 1 2) with
  | .ok (some (_, σ)) => σ
  | _ => mkBPM 1 2

/-- Pool of one frame, `k = 2`: `NewPage` → 0, `UnpinPage(0,true)`,
`NewPage` → 1 (flushes the dirty victim), `UnpinPage(1,true)`.  Ends with
page 1 resident and dirty in frame 0 and write log `[0]`. -/
def bpmResidentDirtyPage1 : Option BPM :=
  match (do
    match ← newPage (mkBPM 1 2) with
    | none => pure none
    | some (_, a) => do
      let (_, b) ← unpinPage a 0 true
      match ← newPage b with
      | none => pure none
      | some (_, c) => do
        let (_, d) ← unpinPage c 1 true
        pure (some d) : Except RErr (Option BPM)) with
  | .ok (some σ) => some σ
  | _ => none

/-- Replacer with `num_frames = 3`, `k = 2` after
`RecordAccess(1); RecordAccess(2); RecordAccess(2); RecordAccess(1)` and
marking frames 1 and 2 evictable: frame 1's history is `[1,4]`, frame 2's
is `[2,3]`. -/
def replacerTwoMature : Except RErr LRUKReplacer := do
  let r1 ← recordAccess (mkReplacer 3 2) 1
  let r2 ← recordAccess r1 2
  let r3 ← recordAccess r2 2
  let r4 ← recordAccess r3 1
  let r5 ← setEvictable r4 1 true
  setEvictable r5 2 true

/-- C1: the claim says every buffer pool operation preserves the page-table
invariant, the victim's old entry being removed whether it was dirty or
clean.  The code erases the old entry only in `NewPage`'s dirty branch (and
never in either revision of `FetchPage`): after `NewPage; UnpinPage(0,false);
NewPage` on a one-frame pool the table holds both `(0,0)` and `(1,0)` —
frame 0 appears twice as a value and entry `(0,0)` points at a frame that
now holds page 1 — so the invariant is violated. -/
theorem newPage_clean_victim_stale_page_table_entry :
    bpmNewPageTwice.map BPM.pageTable = some [(0, 0), (1, 0)] ∧
    bpmNewPageTwice.map (fun σ => (σ.pages.getD 0 Page.init).pageId) = some 1 ∧
    bpmNewPageTwice.map (fun σ => decide (pageTableInv σ)) = some false := by
  decide

/-- C2: the claim says `Evict` removes the evictable frame with the largest
backward K-distance.  In the state of `replacerTwoMature` both frames are
evictable, frame 1's distance is 3 and frame 2's is 2, yet `Evict` returns
frame 2: `k_frames_` is kept in order of *last* access, not of the
Kth-most-recent access. -/
theorem evict_ignores_backward_k_distance :
    replacerTwoMature.map (fun r => (alookup r.nodeStore 1).map LRUKNode.isEvictable)
      = .ok (some true) ∧
    replacerTwoMature.map (fun r => (alookup r.nodeStore 2).map LRUKNode.isEvictable)
      = .ok (some true) ∧
    replacerTwoMature.map (fun r => backwardKDistance r 1) = .ok (some (some 3)) ∧
    replacerTwoMature.map (fun r => backwardKDistance r 2) = .ok (some (some 2)) ∧
    replacerTwoMature.map (fun r => (evictOp r).1) = .ok (some 2) := by
  decide

/-- C3: the claim says a resident page is always returned with its pin count
incremented, `FetchPage` failing only when the page is absent and every
frame is pinned.  In `bpmOnePinned` page 0 is resident but every frame is
pinned: revision v2 (src/src/buffer/buffer_pool_manager.cpp) returns null
because it checks pool exhaustion before consulting the page table, while
revision v1 (src/unnamed/part_001) returns frame 0 with pin count 2. -/
theorem fetchPage_v2_refuses_resident_page_when_all_pinned :
    alookup bpmOnePinned.pageTable 0 = some 0 ∧
    (bpmOnePinned.pages.getD 0 Page.init).pinCount = 1 ∧
    bpmOnePinned.freeList = [] ∧ replacerCount bpmOnePinned.repl = 0 ∧
    fetchPage_v2 bpmOnePinned 0 = .ok none ∧
    (match fetchPage_v1 bpmOnePinned 0 with
     | .ok (some (f, σ2)) => some (f, (σ2.pages.getD f Page.init).pinCount)
     | _ => none) = some (0, 2) := by
  decide

/-- C8: the claim says `FlushAllPages` writes every resident page and clears
its dirty flag.  Revision v2 (src/src/buffer/buffer_pool_manager.cpp)
passes the loop index as a page id: in `bpmResidentDirtyPage1` the only
resident page is page 1 (dirty, in frame 0), `FlushPage(0)` finds page 0
not resident, so nothing is written and page 1 stays dirty.  Revision v1
flushes it as the claim demands. -/
theorem flushAllPages_v2_misses_resident_page :
    bpmResidentDirtyPage1.map BPM.pageTable = some [(1, 0)] ∧
    bpmResidentDirtyPage1.map (fun σ => (σ.pages.getD 0 Page.init).isDirty) = some true ∧
    bpmResidentDirtyPage1.map BPM.writeLog = some [0] ∧
    bpmResidentDirtyPage1.map (fun σ => (flushAllPages_v2 σ).writeLog) = some [0] ∧
    bpmResidentDirtyPage1.map (fun σ => ((flushAllPages_v2 σ).pages.getD 0 Page.init).isDirty)
      = some true ∧
    bpmResidentDirtyPage1.map (fun σ => (flushAllPages_v1 σ).writeLog) = some [0, 1] ∧
    bpmResidentDirtyPage1.map (fun σ => ((flushAllPages_v1 σ).pages.getD 0 Page.init).isDirty)
      = some false := by
  decide

theorem getD_set_self {β : Type} (l : List β) (n : Nat) (a d : β) (h : n < l.length) :
    (l.set n a).getD n d = a := by
  simp [List.getD, List.getElem?_set_self, h]

/-- The page record `UnpinPage` leaves behind on a successful unpin:
pin count decremented, dirty flag latched on when `is_dirty` is true
(and never cleared when it is false). -/
def unpinnedPage (pg : Page) (d : Bool) : Page :=
  { pg with pinCount := pg.pinCount - 1, isDirty := pg.isDirty || d }

/-- C4: `UnpinPage(p, d)` returns false leaving the state unchanged exactly
when `p` is not resident or its pin count is already 0; otherwise it
decrements the pin count, leaves the replacer untouched while the count
stays positive, marks the frame evictable exactly when the count reaches 0,
and `d` latches the dirty flag on without ever clearing it.  The bounds
hypotheses (`f < σ.pages.length`, `f < replacer_size_`, frame tracked)
hold in every reachable state: a resident frame is in range and was
recorded when its page was admitted. -/
theorem unpinPage_spec (σ : BPM) (pid : Int) (d : Bool) :
    (alookup σ.pageTable pid = none → unpinPage σ pid d = .ok (false, σ)) ∧
    (∀ f, alookup σ.pageTable pid = some f →
      (σ.pages.getD f Page.init).pinCount = 0 → unpinPage σ pid d = .ok (false, σ)) ∧
    (∀ f, alookup σ.pageTable pid = some f → f < σ.pages.length →
      1 < (σ.pages.getD f Page.init).pinCount →
      unpinPage σ pid d = .ok (true,
        { σ with pages := σ.pages.set f (unpinnedPage (σ.pages.getD f Page.init) d) })) ∧
    (∀ f n, alookup σ.pageTable pid = some f → f < σ.pages.length →
      f < σ.repl.replacerSize → alookup σ.repl.nodeStore f = some n →
      (σ.pages.getD f Page.init).pinCount = 1 →
      unpinPage σ pid d = .ok (true,
        { σ with
          pages := σ.pages.set f (unpinnedPage (σ.pages.getD f Page.init) d),
          repl := { σ.repl with
            nodeStore := aset σ.repl.nodeStore f { n with isEvictable := true } } })) := by
  refine ⟨?_, ?_, ?_, ?_⟩
  · intro h; simp only [unpinPage, h]
  · intro f hf hp0
    have h1 : (σ.pages.getD f Page.init).pinCount ≤ 0 := le_of_eq hp0
    simp only [unpinPage, hf]
    rw [if_pos h1]
  · intro f hf hlen hpin
    have hne : ¬ (σ.pages.getD f Page.init).pinCount ≤ 0 := by omega
    have hpc : ¬ ((σ.pages.getD f Page.init).pinCount - 1 = 0) := by omega
    simp only [unpinPage, hf]
    rw [if_neg hne, if_neg hpc]
    simp only []
    rw [getD_set_self _ _ _ _ (by simpa using hlen)]
    cases d <;> simp [List.set_set, unpinnedPage]
  · intro f n hf hlen hrs hnode hpin
    have hne : ¬ (σ.pages.getD f Page.init).pinCount ≤ 0 := by omega
    have hpc : (σ.pages.getD f Page.init).pinCount - 1 = 0 := by omega
    have hrs2 : ¬ σ.repl.replacerSize ≤ f := by omega
    simp only [unpinPage, hf]
    rw [if_neg hne, if_pos hpc]
    simp only [setEvictable]
    rw [if_neg hrs2]
    simp only [hnode]
    rw [getD_set_self _ _ _ _ (by simpa using hlen)]
    cases d <;> simp [List.set_set, unpinnedPage, hpc, hpin]

/-- Witness for `unpinPage_spec`: in `bpmOnePinned` page 0 is resident in
frame 0 with pin count 1 and tracked node `⟨[1], false⟩`; unpinning brings
the count to 0 and marks the frame evictable. -/
theorem unpinPage_spec_witness :
    unpinPage bpmOnePinned 0 false = .ok (true,
      { bpmOnePinned with
        pages := bpmOnePinned.pages.set 0 (unpinnedPage (bpmOnePinned.pages.getD 0 Page.init) false),
        repl := { bpmOnePinned.repl with
          nodeStore := aset bpmOnePinned.repl.nodeStore 0
            { (⟨[1], false⟩ : LRUKNode) with isEvictable := true } } }) :=
  (unpinPage_spec bpmOnePinned 0 false).2.2.2 0 ⟨[1], false⟩
    (by decide) (by decide) (by decide) (by decide) (by decide)

/-! ## B+ tree (`src/src/storage/index/b_plus_tree.cpp` and the page
layouts in `src/src/storage/page/`)

Keys and values are embedded as `Int` (generic fixed-length keys under a
comparator in the source; record ids at leaves and child page ids at
internals).  A page's entry array together with its size field becomes a
list; sizes are the list lengths, `max_size` stays an `Int` because the
source compares with `GetMaxSize() - 1` in `int` arithmetic.  The buffer
pool is abstracted to the page-id-indexed store the tree reads and writes
through its page guards; page ids are handed out by a counter standing for
`NewPageGuarded`.  The binary-search loops carry fuel; each iteration
shrinks `high - low`, so `size + 2` fuel is never exhausted. -/

/-- `KeyAt(i)` / entry read.  Out-of-range slots (uninitialized array cells
in the source) read as `(0, -1)`. -/
def keyAt (entries : List (Int × Int)) (i : Nat) : Int := (entries.getD i (0, -1)).1

/-- `ValueAt(i)`. -/
def valueAt (entries : List (Int × Int)) (i : Nat) : Int := (entries.getD i (0, -1)).2

/-- The `while (low <= high)` binary-search loop shared verbatim by
`BPlusTreeLeafPage::FindPosition` (which starts it at `low = 0`) and
`BPlusTreeInternalPage::FindInsertPosition` (`low = 1`): on an exact
comparator hit return `mid`, otherwise narrow to the half containing the
key and finally return `low`. -/
def bsearchLE (entries : List (Int × Int)) (key : Int) : Nat → Int → Int → Int
  | 0, low, _ => low
  | fuel + 1, low, high =>
    if low ≤ high then
      let mid := (low + high) / 2
      let mk := keyAt entries mid.toNat
      if mk = key then mid
      else if mk < key then bsearchLE entries key fuel (mid + 1) high
      else bsearchLE entries key fuel low (mid - 1)
    else low

/-- The `while (low < high)` loop of `BPlusTreeInternalPage::FindChildIndex`. -/
def bsearchLT (entries : List (Int × Int)) (key : Int) : Nat → Int → Int → Int
  | 0, low, _ => low
  | fuel + 1, low, high =>
    if low < high then
      let mid := (low + high) / 2
      let mk := keyAt entries mid.toNat
      if mk = key then mid
      else if mk < key then bsearchLT entries key fuel (mid + 1) high
      else bsearchLT entries key fuel low (mid - 1)
    else low

/-- `BPlusTreeLeafPage::FindPosition`. -/
def leafFindPosition (entries : List (Int × Int)) (key : Int) : Int :=
  bsearchLE entries key (entries.length + 2) 0 ((entries.length : Int) - 1)

/-- `BPlusTreeInternalPage::FindInsertPosition` (slot 0 is reserved for the
leftmost child, so the search starts at index 1). -/
def findInsertPosition (entries : List (Int × Int)) (key : Int) : Int :=
  bsearchLE entries key (entries.length + 2) 1 ((entries.length : Int) - 1)

/-- `BPlusTreeInternalPage::FindChildIndex`: index 0 when the key is below
`KeyAt(1)`, else binary search over slots `1 .. size-1`. -/
def findChildIndex (entries : List (Int × Int)) (key : Int) : Int :=
  if key < keyAt entries 1 then 0
  else bsearchLT entries key (entries.length + 2) 1 ((entries.length : Int) - 1)

/-- `BPlusTree::InsertInLeaf`: refuse when `GetMaxSize() - 1 == GetSize()`,
otherwise shift and place the pair at `FindPosition` (no duplicate check). -/
def insertInLeaf (key value : Int) (entries : List (Int × Int)) (maxSize : Int) :
    Bool × List (Int × Int) :=
  if maxSize - 1 = (entries.length : Int) then (false, entries)
  else (true, insertAtPos (leafFindPosition entries key).toNat (key, value) entries)

/-- `BPlusTreeInternalPage::InsertAt`.  The `position == 0` branch of the
source overwrites slot 0's child and bumps the size without shifting,
exposing one uninitialized slot at the end; it is unreachable because
`FindInsertPosition` returns at least 1. -/
def internalInsertAt (entries : List (Int × Int)) (position : Nat) (key childId : Int) :
    List (Int × Int) :=
  if position = 0 then
    match entries with
    | [] => [(0, childId)]
    | e0 :: rest => (e0.1, childId) :: rest ++ [(0, -1)]
  else insertAtPos position (key, childId) entries

/-- Second half of `BPlusTree::SplitInternalNode`: divide the combined list
`tmp` at `middle_index = (max_size + 1) / 2` (C++ integer division) into
the entries kept on the left page, the middle key lifted to the parent
(`tmp[middle_index].first`), and the entries copied to the right page —
slot 0 of the right page receives the middle entry itself, its key sitting
in the unused slot-0 key. -/
def splitInternalDivide (tmp : List (Int × Int)) (maxSize : Int) :
    List (Int × Int) × Int × List (Int × Int) :=
  let middleIndex := ((maxSize + 1) / 2).toNat
  (tmp.take middleIndex, keyAt tmp middleIndex, tmp.drop middleIndex)

/-- Entry-list effect of `BPlusTree::SplitInternalNode`: build `tmp` by
inserting `(key, child_id)` after `FindChildIndex(key)`, then divide. -/
def splitInternalList (entries : List (Int × Int)) (key childId maxSize : Int) :
    List (Int × Int) × Int × List (Int × Int) :=
  splitInternalDivide
    (insertAtPos ((findChildIndex entries key).toNat + 1) (key, childId) entries) maxSize

/-- A B+ tree page: header fields (max size, parent id, is-root flag, and
for leaves the sibling pointer) plus the entry array truncated to the
size field. -/
inductive BPTPage where
  | leaf (entries : List (Int × Int)) (maxSize : Int) (next : Int) (isRoot : Bool) (parent : Int)
  | internal (entries : List (Int × Int)) (maxSize : Int) (isRoot : Bool) (parent : Int)
  deriving Repr, DecidableEq

/-- `IsRootPage()`. -/
def BPTPage.isRootPage : BPTPage → Bool
  | .leaf _ _ _ r _ => r
  | .internal _ _ r _ => r

/-- `GetParent()`. -/
def BPTPage.parentId : BPTPage → Int
  | .leaf _ _ _ _ p => p
  | .internal _ _ _ p => p

/-- `SetParent(pid)`. -/
def BPTPage.setParent : BPTPage → Int → BPTPage
  | .leaf e m n r _, p => .leaf e m n r p
  | .internal e m r _, p => .internal e m r p

/-- The tree's world: the pages it reaches through the buffer pool manager,
the header page's root id, the allocation counter behind `NewPageGuarded`,
and the construction parameters `leaf_max_size_` / `internal_max_size_`. -/
structure BPTState where
  pages : List (Int × BPTPage)
  headerRoot : Int
  nextPage : Int
  leafMax : Int
  internalMax : Int
  deriving Repr, DecidableEq

/-- Update a page's parent pointer if the page exists
(`FetchPageWrite(id)` + `SetParent`). -/
def setParentAt (σ : BPTState) (pid newParent : Int) : BPTState :=
  match alookup σ.pages pid with
  | some pg => { σ with pages := aset σ.pages pid (pg.setParent newParent) }
  | none => σ

/-- `BPlusTree::FindLeafNode`'s descent loop; returns `INVALID_PAGE_ID`
(= -1) on the "should not happen" fall-through (or on a dangling page id,
where the source would hand a garbage frame to `As<InternalPage>`). -/
def findLeafLoop (σ : BPTState) (key : Int) : Nat → Int → Int
  | 0, _ => -1
  | fuel + 1, cur =>
    if cur = -1 then -1
    else
      match alookup σ.pages cur with
      | none => -1
      | some (.leaf _ _ _ _ _) => cur
      | some (.internal entries _ _ _) =>
        findLeafLoop σ key fuel (valueAt entries (findChildIndex entries key).toNat)

/-- `BPlusTree::FindLeafNode`. -/
def findLeafNode (σ : BPTState) (key : Int) : Int :=
  findLeafLoop σ key (σ.pages.length + 2) σ.headerRoot

mutual

/-- `BPlusTree::InsertInParent`.  When the old node is (flagged as) the
root, allocate a new root `[(·, old), (middle, new)]` of size 2 and point
the header at it (the old node's own is-root flag is never cleared); when
the parent has room, insert `(middle_key, new_child)` at
`FindInsertPosition`; otherwise split the parent recursively.  `none`
models fuel exhaustion or a dangling parent id (unreachable from the
states exercised here). -/
def insertInParent : BPTState → Int → Int → Int → Nat → Option BPTState
  | _, _, _, _, 0 => none
  | σ, oldId, middleKey, newId, fuel + 1 =>
    match alookup σ.pages oldId with
    | none => none
    | some oldPg =>
      if oldPg.isRootPage then
        let newRootId := σ.nextPage
        let pgs1 := aset σ.pages newRootId
          (.internal [(0, oldId), (middleKey, newId)] σ.internalMax true (-1))
        let σ1 := { σ with nextPage := σ.nextPage + 1, pages := pgs1 }
        let σ2 := setParentAt σ1 newId newRootId
        let σ3 := setParentAt σ2 oldId newRootId
        some { σ3 with headerRoot := newRootId }
      else
        match alookup σ.pages oldPg.parentId with
        | some (.internal pentries pmax pisRoot pparent) =>
          if (pentries.length : Int) < pmax then
            let pos := (findInsertPosition pentries middleKey).toNat
            let pgs1 := aset σ.pages oldPg.parentId
              (.internal (internalInsertAt pentries pos middleKey newId) pmax pisRoot pparent)
            let σ1 := { σ with pages := pgs1 }
            some (setParentAt σ1 newId oldPg.parentId)
          else splitInternalNode σ oldPg.parentId middleKey newId fuel
        | _ => none

/-- `BPlusTree::SplitInternalNode` on the page store: divide via
`splitInternalList`, allocate the right page (max size
`internal_max_size_`), rewrite the left page in place, re-parent the
moved-in child, and recurse into `InsertInParent`. -/
def splitInternalNode : BPTState → Int → Int → Int → Nat → Option BPTState
  | _, _, _, _, 0 => none
  | σ, pageId, key, childId, fuel + 1 =>
    match alookup σ.pages pageId with
    | some (.internal entries maxSize isRoot parent) =>
      let lmr := splitInternalList entries key childId maxSize
      let newId := σ.nextPage
      let pgs1 := aset σ.pages newId (.internal lmr.2.2 σ.internalMax false (-1))
      let σ1 := { σ with nextPage := σ.nextPage + 1, pages := pgs1 }
      let σ2 := { σ1 with pages := aset σ1.pages pageId (.internal lmr.1 maxSize isRoot parent) }
      let σ3 := setParentAt σ2 childId newId
      insertInParent σ3 pageId lmr.2.1 newId fuel
    | _ => none

end

/-- `BPlusTree::SplitLeafNode`: combined list at `FindPosition`, divide at
`max_size / 2`, link the new leaf into the sibling chain, lift the first
key of the new leaf. -/
def splitLeafNode (σ : BPTState) (leafId key value : Int) (fuel : Nat) : Option BPTState :=
  match alookup σ.pages leafId with
  | some (.leaf entries maxSize next isRoot parent) =>
    let tmp := insertAtPos (leafFindPosition entries key).toNat (key, value) entries
    let middleIndex := (maxSize / 2).toNat
    let middleKey := keyAt tmp middleIndex
    let newLeafId := σ.nextPage
    let pgs1 := aset σ.pages newLeafId (.leaf (tmp.drop middleIndex) σ.leafMax next false (-1))
    let σ1 := { σ with nextPage := σ.nextPage + 1, pages := pgs1 }
    let pgs2 := aset σ1.pages leafId (.leaf (tmp.take middleIndex) maxSize newLeafId isRoot parent)
    let σ2 := { σ1 with pages := pgs2 }
    insertInParent σ2 leafId middleKey newLeafId fuel
  | _ => none

/-- `BPlusTree::Insert`: an empty tree gets a fresh root leaf (the result
of `InsertInLeaf` is discarded there) and the call returns true; otherwise
descend to the leaf, try `InsertInLeaf`, split on failure — every path
returns true, duplicates included. -/
def insertOp (σ : BPTState) (key value : Int) (fuel : Nat) : Option (Bool × BPTState) :=
  if σ.headerRoot = -1 then
    let rootId := σ.nextPage
    let res := insertInLeaf key value [] σ.leafMax
    let pgs1 := aset σ.pages rootId (.leaf res.2 σ.leafMax (-1) true (-1))
    some (true, { σ with nextPage := σ.nextPage + 1, headerRoot := rootId, pages := pgs1 })
  else
    let leafId := findLeafNode σ key
    match alookup σ.pages leafId with
    | some (.leaf entries maxSize next isRoot parent) =>
      match insertInLeaf key value entries maxSize with
      | (true, entries2) =>
        let pgs1 := aset σ.pages leafId (.leaf entries2 maxSize next isRoot parent)
        some (true, { σ with pages := pgs1 })
      | (false, _) => (splitLeafNode σ leafId key value fuel).map (fun σ2 => (true, σ2))
    | _ => none

/-- `BPlusTree::GetValue` is a stub: it ignores the tree and the key and
returns false ("key does not exist"). -/
def getValue (_σ : BPTState) (_key : Int) : Bool := false

/-- `BPlusTree::Remove` is a stub: the state is returned unchanged. -/
def removeOp (σ : BPTState) (_key : Int) : BPTState := σ

/-- An empty tree with `leaf_max_size = internal_max_size = 3`. -/
def bptEmpty : BPTState := ⟨[], -1, 0, 3, 3⟩

/-- `Insert(1, 100)` then `Insert(1, 200)` on the empty tree. -/
def bptDupInsert : Option (Bool × BPTState) :=
  match insertOp bptEmpty 1 100 8 with
  | some (true, σ1) => insertOp σ1 1 200 8
  | _ => none

/-- C5: the claim says `Insert` of a key already present returns false and
leaves the key set unchanged.  `Insert` never compares the new key against
existing entries: re-inserting key 1 returns true and the root leaf ends up
holding key 1 twice — contradicting `Insert`'s own doc comment ("if user
try to insert duplicate keys return false"). -/
theorem insert_accepts_duplicate_key :
    bptDupInsert.map Prod.fst = some true ∧
    bptDupInsert.map (fun p => alookup p.2.pages p.2.headerRoot)
      = some (some (.leaf [(1, 200), (1, 100)] 3 (-1) true (-1))) := by
  decide

/-- The tree after `Insert(1, 100)` on the empty tree: the root is a leaf
holding exactly `(1, 100)`. -/
def bptOneKey : Option BPTState := (insertOp bptEmpty 1 100 8).map Prod.snd

/-- C6: the claim says `GetValue(k)` returns the most recently inserted
value for `k` (not-found only if `k` was never inserted or last removed).
`GetValue` is a stub returning false and `Remove` is a no-op, so after
`Insert(1, 100)` the lookup still reports not-found. -/
theorem getValue_stub_not_found_after_insert :
    bptOneKey.map (fun σ => alookup σ.pages σ.headerRoot)
      = some (some (.leaf [(1, 100)] 3 (-1) true (-1))) ∧
    bptOneKey.map (fun σ => getValue σ 1) = some false ∧
    bptOneKey.map (fun σ => getValue (removeOp σ 1) 1) = some false := by
  decide

theorem getD_drop {β : Type} (d : β) :
    ∀ (l : List β) (n : Nat), (l.drop n).getD 0 d = l.getD n d := by
  intro l
  induction l with
  | nil => intro n; cases n <;> simp [List.getD]
  | cons x xs ih =>
    intro n
    cases n with
    | zero => simp [List.getD]
    | succ m => simp [List.getD]

/-- C7 counterexample: a full internal page of `max_size = 4` entries split
with a new pair keeps `(4 + 1) / 2 = 2` entries on the left, not
`⌈(4 + 1) / 2⌉ = (4 + 1 + 1) / 2 = 3` as the claim states. -/
theorem splitInternal_left_count_counterexample :
    (([(0, 10), (5, 11), (10, 12), (15, 13)] : List (Int × Int)).length : Int) = 4 ∧
    (splitInternalList [(0, 10), (5, 11), (10, 12), (15, 13)] 7 99 4).1.length = 2 ∧
    ¬ ((splitInternalList [(0, 10), (5, 11), (10, 12), (15, 13)] 7 99 4).1.length
        = (4 + 1 + 1) / 2) := by
  decide

/-- C7 (amended): splitting a full internal page (`size = max_size`) over
the combined list of its entries plus the new pair keeps
`⌊(max_size + 1) / 2⌋` entries on the left (C++ integer division — *floor*,
not ceiling); the remaining entries go right, losing nothing; the key
lifted to the grandparent is the first key of the right half, stored only
in the right node's unused slot-0 key slot; and the lifted entry's child
pointer is kept as the right node's slot-0 (leftmost) child.  The position
hypothesis says `FindChildIndex` lands inside the page, which holds for
every properly formed internal page. -/
theorem splitInternal_division_spec (entries : List (Int × Int)) (key childId maxSize : Int)
    (h0 : 0 ≤ maxSize) (hlen : (entries.length : Int) = maxSize)
    (hpos : (findChildIndex entries key).toNat + 1 ≤ entries.length) :
    (splitInternalList entries key childId maxSize).1.length = ((maxSize + 1) / 2).toNat ∧
    (splitInternalList entries key childId maxSize).1 ++
        (splitInternalList entries key childId maxSize).2.2 =
      insertAtPos ((findChildIndex entries key).toNat + 1) (key, childId) entries ∧
    (splitInternalList entries key childId maxSize).2.1 =
      keyAt (splitInternalList entries key childId maxSize).2.2 0 ∧
    valueAt (splitInternalList entries key childId maxSize).2.2 0 =
      valueAt (insertAtPos ((findChildIndex entries key).toNat + 1) (key, childId) entries)
        ((maxSize + 1) / 2).toNat ∧
    ((splitInternalList entries key childId maxSize).2.2.length : Int)
      = maxSize + 1 - (maxSize + 1) / 2 := by
  have htmp :
      (insertAtPos ((findChildIndex entries key).toNat + 1) (key, childId) entries).length
        = entries.length + 1 := insertAtPos_length _ _ _ hpos
  have hmid : ((maxSize + 1) / 2).toNat ≤ entries.length := by omega
  refine ⟨?_, ?_, ?_, ?_, ?_⟩
  · simp only [splitInternalList, splitInternalDivide, List.length_take]
    omega
  · simp only [splitInternalList, splitInternalDivide, List.take_append_drop]
  · simp only [splitInternalList, splitInternalDivide, keyAt, getD_drop]
  · simp only [splitInternalList, splitInternalDivide, valueAt, getD_drop]
  · simp only [splitInternalList, splitInternalDivide, List.length_drop]
    omega

/-- Witness for `splitInternal_division_spec` at the full `max_size = 4`
page of the counterexample: the left node keeps `(4 + 1) / 2 = 2` entries. -/
theorem splitInternal_division_spec_witness :
    (splitInternalList [(0, 10), (5, 11), (10, 12), (15, 13)] 7 99 4).1.length
      = (((4 : Int) + 1) / 2).toNat :=
  (splitInternal_division_spec [(0, 10), (5, 11), (10, 12), (15, 13)] 7 99 4
    (by decide) (by decide) (by decide)).1

/-! ## Copy-on-write trie (`src/src/primer/trie.cpp`)

Nodes are immutable and shared; a `TrieNodeWithValue` is a node whose
optional value is present (its `value_` shared pointer is non-null by
construction and `is_value_node_` is set), a plain `TrieNode` one whose
value is absent.  The stored value type is fixed to `Nat`, so the
`dynamic_cast` in `Get` always succeeds on a value node.  A `Trie` is a
possibly-null root pointer, embedded as `Option TrieNode`; dereferencing a
null pointer is made explicit as `TErr.nullDeref`.  The C++ `Put` only
clones or freshly allocates the nodes along the key's path and never
mutates a node reachable from the old root, which is why a functional
embedding captures it: the old trie is structurally unchanged. -/

inductive TrieNode where
  | mk (children : List (Char × TrieNode)) (val : Option Nat)

/-- The node's `children_` map. -/
def TrieNode.children : TrieNode → List (Char × TrieNode)
  | .mk c _ => c

/-- The node's stored value: `some v` for a `TrieNodeWithValue`, `none` for
a plain node. -/
def TrieNode.val : TrieNode → Option Nat
  | .mk _ v => v

inductive TErr where
  | nullDeref
  deriving Repr, DecidableEq

/-- `Trie::Get`.  The walk checks `curr` for null at the top of each
iteration and returns not-found on a missing child; after the loop the
terminal check `curr->is_value_node_ && curr` reads the node *before* the
null test, so an empty key on a null root dereferences the null pointer. -/
def trieGet : Option TrieNode → List Char → Except TErr (Option Nat)
  | curr, [] =>
    match curr with
    | none => .error .nullDeref
    | some n => .ok n.val
  | curr, c :: rest =>
    match curr with
    | none => .ok none
    | some n =>
      match alookup n.children c with
      | none => .ok none
      | some child => trieGet (some child) rest

/-- The per-character walk of `Trie::Put` for a non-empty key: clone or
create each child along the path (`Clone()` keeps content, so it is the
identity here), and at the last character build a value node carrying the
existing child's children (if any) and the new value. -/
def putWalk (node : TrieNode) (key : List Char) (v : Nat) : TrieNode :=
  match key with
  | [] => node
  | [last] =>
    match alookup node.children last with
    | some child => .mk (aset node.children last (.mk child.children (some v))) node.val
    | none => .mk (aset node.children last (.mk [] (some v))) node.val
  | c :: rest =>
    let child :=
      match alookup node.children c with
      | none => (.mk [] none : TrieNode)
      | some ch => ch
    .mk (aset node.children c (putWalk child rest v)) node.val

/-- `Trie::Put`.  `new_root` is the cloned root or a fresh node; the
empty-key branch then reads `root_->children_` — a null dereference when
the root is null — and otherwise produces a value node over the old root's
children. -/
def triePut (root : Option TrieNode) (key : List Char) (v : Nat) :
    Except TErr (Option TrieNode) :=
  match key with
  | [] =>
    match root with
    | none => .error .nullDeref
    | some r => .ok (some (.mk r.children (some v)))
  | _ :: _ =>
    let newRoot :=
      match root with
      | some r => r
      | none => (.mk [] none : TrieNode)
    .ok (some (putWalk newRoot key v))

theorem trieGet_putWalk (v : Nat) :
    ∀ (key : List Char) (node : TrieNode), key ≠ [] →
      trieGet (some (putWalk node key v)) key = .ok (some v) := by
  intro key
  induction key with
  | nil => intro node h; exact absurd rfl h
  | cons c rest ih =>
    intro node _
    obtain ⟨nc, nv⟩ := node
    cases rest with
    | nil =>
      cases halo : alookup nc c with
      | none =>
        simp [putWalk, TrieNode.children, halo, trieGet, alookup_aset_self, TrieNode.val]
      | some child =>
        obtain ⟨cc, cv⟩ := child
        simp [putWalk, TrieNode.children, halo, trieGet, alookup_aset_self, TrieNode.val]
    | cons c2 r2 =>
      simp only [putWalk, trieGet, TrieNode.children, alookup_aset_self]
      exact ih _ (by simp)

/-- C9 counterexample: on the empty trie (null root) with the empty key,
`Put` dereferences the null root instead of producing a trie, so the
round-trip `Put("", v).Get("") = v` fails at `t = empty trie, k = "",
v = 0`. -/
theorem put_get_empty_key_null_root_counterexample :
    triePut (none : Option TrieNode) [] 0 = .error .nullDeref ∧
    ¬ ((triePut (none : Option TrieNode) [] 0).map (fun t => trieGet t [])
        = .ok (.ok (some 0))) := by
  refine ⟨rfl, ?_⟩
  decide

/-- C9 (amended): for every trie `t`, key `k` and value `v`, *except* when
`t`'s root is null and `k` is empty (where `Put` dereferences the null
root), `t.Put(k, v).Get(k)` returns `v`.  The old trie is unchanged by
construction: `Put` clones the path and never mutates a node reachable
from the old root, which the functional embedding renders literally. -/
theorem put_get_roundtrip (root : Option TrieNode) (key : List Char) (v : Nat)
    (h : root ≠ none ∨ key ≠ []) :
    (triePut root key v).map (fun t => trieGet t key) = .ok (.ok (some v)) := by
  cases key with
  | nil =>
    cases root with
    | none =>
      rcases h with h | h
      · exact absurd rfl h
      · exact absurd rfl h
    | some r => rfl
  | cons c rest =>
    cases root with
    | none =>
      simp only [triePut, Except.map]
      rw [trieGet_putWalk v _ _ (by simp)]
    | some r =>
      simp only [triePut, Except.map]
      rw [trieGet_putWalk v _ _ (by simp)]

/-- Witness for `put_get_roundtrip`: inserting value 7 at key "a" into the
empty trie and reading it back. -/
theorem put_get_roundtrip_witness :
    (triePut (none : Option TrieNode) ['a'] 7).map (fun t => trieGet t ['a'])
      = .ok (.ok (some 7)) :=
  put_get_roundtrip none ['a'] 7 (Or.inr (by simp))

/-- C10: on the empty trie (null root), `Get` with the empty key and `Put`
with the empty key both dereference the null root (`Get`'s terminal check
reads the node before its null test; `Put`'s empty-key branch reads
`root_->children_`), while for every non-empty key `Get` returns not-found
without touching a null pointer and `Put` builds a trie in which the key
maps to the new value. -/
theorem trie_null_root_dereference_spec (key : List Char) (v : Nat) :
    trieGet (none : Option TrieNode) [] = .error .nullDeref ∧
    triePut (none : Option TrieNode) [] v = .error .nullDeref ∧
    (key ≠ [] →
      trieGet (none : Option TrieNode) key = .ok none ∧
      (triePut (none : Option TrieNode) key v).map (fun t => trieGet t key)
        = .ok (.ok (some v))) := by
  refine ⟨rfl, rfl, fun hk => ⟨?_, ?_⟩⟩
  · cases key with
    | nil => exact absurd rfl hk
    | cons c rest => rfl
  · exact put_get_roundtrip none key v (Or.inr hk)

/-- Witness for `trie_null_root_dereference_spec` at key "a", value 5. -/
theorem trie_null_root_dereference_witness :
    trieGet (none : Option TrieNode) [] = .error .nullDeref ∧
    trieGet (none : Option TrieNode) ['a'] = .ok none := by
  have h := trie_null_root_dereference_spec ['a'] 5
  exact ⟨h.1, (h.2.2 (by simp)).1⟩

end BusTub